import Mathlib

/-!
Verification of the NextDownloader adaptive-streaming download engine.

This file shallowly embeds the parts of the Rust source that the verified
properties are about:

* `src/core/src/types.rs` — `DownloadOptions`, `VideoFormat`, `DownloadError`;
* `src/core/src/tools/dash.rs` — `DownloadState` and its operations
  (`save`/`load`/`is_segment_completed`/`mark_segment_completed`),
  `get_state_file_path`, the resume/pending partition and result collection of
  `download_segments_parallel`, the `416`-handling recursion of
  `download_segment`, and the state-initialisation phase of `download_dash`;
* `src/core/src/streaming/hls.rs` — `select_best_variant` and the
  media-playlist branch of `parse_manifest`.

Machine integers (`usize`, `u32`, `u64`) are modelled as `Nat`: none of the
embedded code paths perform arithmetic that can overflow on realistic inputs
(the only arithmetic is list lengths, pixel areas and `* 1000` on bitrates).
External collaborators (the HTTP client, the `serde_json` text layer, the
`m3u8_rs` parser, `Url::join`) are modelled at their interface boundary:
servers are response lists, serialisation is modelled at the JSON-value level,
and URL joining is an explicit function parameter.
-/

/-- Model of the error enum `DownloadError` of `src/core/src/types.rs`
(restricted to the variants constructed by the embedded code paths;
`IoError` payloads are opaque and modelled by a numeric code). -/
inductive DownloadErrorM where
  | NetworkError (msg : String)
  | HttpError (status : Nat)
  | IoError (code : Nat)
  | SerializationError (msg : String)
  | DeserializationError (msg : String)
  | InvalidInput (msg : String)
  | ProcessFailed (msg : String)
deriving DecidableEq, Repr

/-- Model of `VideoFormat` of `src/core/src/types.rs`. -/
inductive VideoFormat where
  | Mp4
  | Mkv
  | Mp3
deriving DecidableEq, Repr

/-- Model of `DownloadOptions` of `src/core/src/types.rs` (the options struct
serialised inside `DownloadState`). -/
structure DownloadOptions where
  connections : Nat
  splits : Nat
  chunk_size : Nat
  retry_wait : Nat
  max_retries : Nat
  use_http2 : Bool
  use_quic : Bool
  use_keep_alive : Bool
  format : VideoFormat
  use_direct_download : Option Bool
  segment_timeout : Option Nat
  segment_retries : Option Nat
  segment_retry_delay : Option Nat
deriving DecidableEq, Repr

/-- Model of `impl Default for DownloadOptions` of `src/core/src/types.rs`. -/
def DownloadOptions.default : DownloadOptions :=
  { connections := 16
    splits := 16
    chunk_size := 4
    retry_wait := 2
    max_retries := 5
    use_http2 := true
    use_quic := false
    use_keep_alive := true
    format := VideoFormat.Mp4
    use_direct_download := some false
    segment_timeout := some 30
    segment_retries := some 3
    segment_retry_delay := some 1000 }

/-- Model of `DownloadState` of `src/core/src/tools/dash.rs` (lines 18-34).
`segment_mapping : HashMap<String, String>` is modelled as an association
list and `updated_at : chrono::DateTime<Utc>` as a numeric timestamp. -/
structure DownloadState where
  source_url : String
  output_path : String
  completed_segments : List Nat
  total_segments : Nat
  segment_mapping : List (String × String)
  options : DownloadOptions
  updated_at : Nat
deriving DecidableEq, Repr

/-- Model of `DownloadState::new` (`src/core/src/tools/dash.rs` lines 38-54):
a fresh state starts with an empty `completed_segments` vector. -/
def DownloadState.new (source_url output_path : String) (total_segments : Nat)
    (segment_mapping : List (String × String)) (options : DownloadOptions)
    (now : Nat) : DownloadState :=
  { source_url := source_url
    output_path := output_path
    completed_segments := []
    total_segments := total_segments
    segment_mapping := segment_mapping
    options := options
    updated_at := now }

/-- Model of `DownloadState::is_segment_completed`
(`src/core/src/tools/dash.rs` lines 77-79): `Vec::contains`. -/
def DownloadState.is_segment_completed (s : DownloadState) (index : Nat) : Bool :=
  s.completed_segments.contains index

/-- Model of `DownloadState::mark_segment_completed`
(`src/core/src/tools/dash.rs` lines 82-87): push the index and refresh
`updated_at` only when the index is not already present.  The current clock
value is an explicit argument `now`. -/
def DownloadState.mark_segment_completed (s : DownloadState) (index : Nat)
    (now : Nat) : DownloadState :=
  if s.completed_segments.contains index then s
  else { s with completed_segments := s.completed_segments ++ [index], updated_at := now }

/-- JSON value tree, the interface level of `serde_json`: `to_string_pretty`
followed by `from_str` is modelled as passing this value tree through
unchanged, which is exactly the contract of the text layer. -/
inductive Json where
  | null : Json
  | bool : Bool → Json
  | num : Nat → Json
  | str : String → Json
  | arr : List Json → Json
  | obj : List (String × Json) → Json

/-- Read a JSON number. -/
def Json.asNat : Json → Option Nat
  | .num n => some n
  | _ => none

/-- Read a JSON boolean. -/
def Json.asBool : Json → Option Bool
  | .bool b => some b
  | _ => none

/-- Read a JSON string. -/
def Json.asStr : Json → Option String
  | .str s => some s
  | _ => none

/-- Read a serde `Option<bool>`: `null` for `None`, the value for `Some`. -/
def Json.asOptBool : Json → Option (Option Bool)
  | .null => some none
  | .bool b => some (some b)
  | _ => none

/-- Read a serde `Option<u64>`: `null` for `None`, the value for `Some`. -/
def Json.asOptNat : Json → Option (Option Nat)
  | .null => some none
  | .num n => some (some n)
  | _ => none

/-- Read a list of JSON numbers element by element. -/
def Json.natListAux : List Json → Option (List Nat)
  | [] => some []
  | j :: rest => do
      let n ← j.asNat
      let t ← Json.natListAux rest
      pure (n :: t)

/-- Read a JSON array of numbers (the `completed_segments` vector). -/
def Json.asNatList : Json → Option (List Nat)
  | .arr xs => Json.natListAux xs
  | _ => none

/-- Read the fields of a JSON object as string entries, field by field. -/
def Json.strMapAux : List (String × Json) → Option (List (String × String))
  | [] => some []
  | kv :: rest =>
      match kv.2 with
      | .str v => do
          let t ← Json.strMapAux rest
          pure ((kv.1, v) :: t)
      | _ => none

/-- Read a JSON object whose values are all strings (the `segment_mapping`
map). -/
def Json.asStrMap : Json → Option (List (String × String))
  | .obj fs => Json.strMapAux fs
  | _ => none

/-- Serde encoding of `VideoFormat` (externally tagged unit variants encode as
their name string). -/
def encodeVideoFormat : VideoFormat → Json
  | .Mp4 => .str "Mp4"
  | .Mkv => .str "Mkv"
  | .Mp3 => .str "Mp3"

/-- Serde decoding of `VideoFormat`. -/
def decodeVideoFormat : Json → Option VideoFormat
  | .str "Mp4" => some .Mp4
  | .str "Mkv" => some .Mkv
  | .str "Mp3" => some .Mp3
  | _ => none

/-- Serde encoding of `Option<bool>`. -/
def encodeOptBool : Option Bool → Json
  | none => .null
  | some b => .bool b

/-- Serde encoding of `Option<u64>`. -/
def encodeOptNat : Option Nat → Json
  | none => .null
  | some n => .num n

/-- Serde encoding of `DownloadOptions` (field per field, derived
`Serialize`). -/
def encodeDownloadOptions (o : DownloadOptions) : Json :=
  .obj [("connections", .num o.connections),
        ("splits", .num o.splits),
        ("chunk_size", .num o.chunk_size),
        ("retry_wait", .num o.retry_wait),
        ("max_retries", .num o.max_retries),
        ("use_http2", .bool o.use_http2),
        ("use_quic", .bool o.use_quic),
        ("use_keep_alive", .bool o.use_keep_alive),
        ("format", encodeVideoFormat o.format),
        ("use_direct_download", encodeOptBool o.use_direct_download),
        ("segment_timeout", encodeOptNat o.segment_timeout),
        ("segment_retries", encodeOptNat o.segment_retries),
        ("segment_retry_delay", encodeOptNat o.segment_retry_delay)]

/-- Serde decoding of `DownloadOptions` (field lookup by name, derived
`Deserialize`). -/
def decodeDownloadOptions (j : Json) : Option DownloadOptions :=
  match j with
  | .obj fs => do
      let connections ← (fs.lookup "connections").bind Json.asNat
      let splits ← (fs.lookup "splits").bind Json.asNat
      let chunk_size ← (fs.lookup "chunk_size").bind Json.asNat
      let retry_wait ← (fs.lookup "retry_wait").bind Json.asNat
      let max_retries ← (fs.lookup "max_retries").bind Json.asNat
      let use_http2 ← (fs.lookup "use_http2").bind Json.asBool
      let use_quic ← (fs.lookup "use_quic").bind Json.asBool
      let use_keep_alive ← (fs.lookup "use_keep_alive").bind Json.asBool
      let format ← (fs.lookup "format").bind decodeVideoFormat
      let use_direct_download ← (fs.lookup "use_direct_download").bind Json.asOptBool
      let segment_timeout ← (fs.lookup "segment_timeout").bind Json.asOptNat
      let segment_retries ← (fs.lookup "segment_retries").bind Json.asOptNat
      let segment_retry_delay ← (fs.lookup "segment_retry_delay").bind Json.asOptNat
      pure { connections := connections
             splits := splits
             chunk_size := chunk_size
             retry_wait := retry_wait
             max_retries := max_retries
             use_http2 := use_http2
             use_quic := use_quic
             use_keep_alive := use_keep_alive
             format := format
             use_direct_download := use_direct_download
             segment_timeout := segment_timeout
             segment_retries := segment_retries
             segment_retry_delay := segment_retry_delay }
  | _ => none

/-- Serde encoding of `DownloadState` (derived `Serialize` of
`src/core/src/tools/dash.rs` lines 18-34). -/
def encodeDownloadState (s : DownloadState) : Json :=
  .obj [("source_url", .str s.source_url),
        ("output_path", .str s.output_path),
        ("completed_segments", .arr (s.completed_segments.map Json.num)),
        ("total_segments", .num s.total_segments),
        ("segment_mapping", .obj (s.segment_mapping.map fun kv => (kv.1, .str kv.2))),
        ("options", encodeDownloadOptions s.options),
        ("updated_at", .num s.updated_at)]

/-- Serde decoding of `DownloadState`. -/
def decodeDownloadState (j : Json) : Option DownloadState :=
  match j with
  | .obj fs => do
      let source_url ← (fs.lookup "source_url").bind Json.asStr
      let output_path ← (fs.lookup "output_path").bind Json.asStr
      let completed_segments ← (fs.lookup "completed_segments").bind Json.asNatList
      let total_segments ← (fs.lookup "total_segments").bind Json.asNat
      let segment_mapping ← (fs.lookup "segment_mapping").bind Json.asStrMap
      let options ← (fs.lookup "options").bind decodeDownloadOptions
      let updated_at ← (fs.lookup "updated_at").bind Json.asNat
      pure { source_url := source_url
             output_path := output_path
             completed_segments := completed_segments
             total_segments := total_segments
             segment_mapping := segment_mapping
             options := options
             updated_at := updated_at }
  | _ => none

/-- File system state at the granularity the state store uses: a map from
path to stored JSON document. -/
def FileStore : Type := String → Option Json

/-- Model of `DownloadState::save` (`src/core/src/tools/dash.rs` lines 57-66):
serialise the state and write it at `path`, replacing previous content. -/
def DownloadState.save (s : DownloadState) (fsys : FileStore) (path : String) :
    FileStore :=
  fun p => if p = path then some (encodeDownloadState s) else fsys p

/-- Model of `DownloadState::load` (`src/core/src/tools/dash.rs` lines 69-74):
read the file at `path` and deserialise it. `none` covers both an unreadable
file and a deserialisation failure. -/
def DownloadState.load (fsys : FileStore) (path : String) : Option DownloadState :=
  (fsys path).bind decodeDownloadState

/-- Zero-padded decimal of width 4, the `{:04}` format used for segment file
names. -/
def pad4 (n : Nat) : String :=
  let s := toString n
  String.mk (List.replicate (4 - s.length) '0') ++ s

/-- Local file name chosen for segment `index` by
`DashDownloadTool::download_segments_parallel`
(`src/core/src/tools/dash.rs` line 248). -/
def segment_file_name (index : Nat) : String :=
  "segment_" ++ pad4 index ++ ".m4s"

/-- Pending partition of the task-creation loop of
`DashDownloadTool::download_segments_parallel`
(`src/core/src/tools/dash.rs` lines 247-257): iterate over the segment list in
index order and create a download task (which issues the segment's HTTP
request) exactly for the indices not already recorded as completed in the
resume state; completed indices are skipped before dispatch. -/
def pendingIndices (n : Nat) (state : Option DownloadState) : List Nat :=
  (List.range n).filter fun index =>
    match state with
    | some st => !(st.is_segment_completed index)
    | none => true

/-- Result collection of `DashDownloadTool::download_segments_parallel`
(`src/core/src/tools/dash.rs` lines 335-364): walk the collected results in
the order the stream yielded them, push successful paths to `success_paths`
and failed positions to `failed_segments`; return an error when any segment
failed, otherwise `success_paths` in yield order. -/
def collect_results (results : List (Except Nat String)) :
    Except DownloadErrorM (List String) :=
  let success_paths := results.filterMap fun r =>
    match r with
    | .ok path => some path
    | .error _ => none
  let failed_segments := results.filterMap fun r =>
    match r with
    | .ok _ => none
    | .error i => some i
  if failed_segments.isEmpty then .ok success_paths
  else .error (.NetworkError
    ("Failed to download " ++ toString failed_segments.length ++ " segments"))

/-- Model of `DashDownloadTool::download_segments_parallel`
(`src/core/src/tools/dash.rs` lines 230-365) with the nondeterministic
execution environment made explicit: `outcome index` tells whether the
spawned task for `index` ultimately succeeds (with its output file present),
and `order` is the order in which `buffer_unordered(max_concurrent).collect()`
yields the spawned tasks' results — its completion order, a permutation of
the task positions.  The function collects results in yield order; no sort by
sequence number is applied before returning. -/
def download_segments_parallel (segment_urls : List String)
    (state : Option DownloadState) (outcome : Nat → Bool) (order : List Nat) :
    Except DownloadErrorM (List String) :=
  let tasks := pendingIndices segment_urls.length state
  collect_results (order.map fun k =>
    match tasks.get? k with
    | some index =>
        if outcome index then .ok (segment_file_name index) else .error index
    | none => .error k)

/-- Observable event of one segment task: its HTTP request starts (the request
becomes in flight) or finishes. -/
inductive FetchEvent where
  | reqStart (i : Nat)
  | reqDone (i : Nat)
deriving DecidableEq, Repr

/-- Validity of an execution trace of the tasks spawned by
`DashDownloadTool::download_segments_parallel` for `n` pending segments:
every request start names a pending task and happens at most once, and a
request finishes only after it started.  The `max_concurrent` argument does
not constrain request starts: each task is handed to the runtime by
`tokio::spawn` during the creation loop (`src/core/src/tools/dash.rs` line
267) and runs immediately, while `buffer_unordered(max_concurrent)` (line
333) only bounds how many join handles are awaited at a time, not how many
already-spawned tasks execute. -/
def dashTraceValidFrom (n : Nat) (started finished : List Nat) :
    List FetchEvent → Bool
  | [] => true
  | .reqStart i :: rest =>
      decide (i < n) && !(started.contains i) &&
        dashTraceValidFrom n (i :: started) finished rest
  | .reqDone i :: rest =>
      started.contains i && !(finished.contains i) &&
        dashTraceValidFrom n started (i :: finished) rest

/-- Valid traces of a `download_segments_parallel` run with `n` pending
segments and concurrency option `max_concurrent`. -/
def dashTraceValid (n max_concurrent : Nat) (trace : List FetchEvent) : Bool :=
  dashTraceValidFrom n [] [] trace

/-- Number of requests in flight after the events of `trace`: started but not
finished. -/
def inFlight (trace : List FetchEvent) (n : Nat) : Nat :=
  ((List.range n).filter fun i =>
    trace.contains (.reqStart i) && !(trace.contains (.reqDone i))).length

deriving instance DecidableEq for Except

/-- One run of `DashDownloadTool::download_segment`
(`src/core/src/tools/dash.rs` lines 807-868), observed at the HTTP and file
system boundary: `requests` records, per HTTP attempt in order, whether a
`Range` header was sent (resume from a nonzero offset); `deletions` counts
local-file deletions; `result` is the returned value, `none` meaning the
recursion did not terminate within the given fuel. -/
structure SegmentFetchRun where
  requests : List Bool
  deletions : Nat
  result : Option (Except DownloadErrorM Unit)
deriving DecidableEq, Repr

/-- Model of `DashDownloadTool::download_segment`
(`src/core/src/tools/dash.rs` lines 807-868).  The server is modelled as the
list of HTTP status codes it answers with, one per request; `file_size` is
the size of the pre-existing local partial file (`none` when absent; opening
then creates an empty file).  A `Range: bytes=<size>-` header is sent exactly
when the file size is positive (lines 828-833).  On status 416 the local file
is deleted and the function recurses on itself (lines 841-845) — the Rust
recursion is unguarded, so the model spends one unit of `fuel` per recursive
call.  On a non-2xx status the call fails with `HttpError`; on a 2xx status
the body is written and the call succeeds (body handling does not affect the
claims and is not modelled). -/
def download_segment (fuel : Nat) (responses : List Nat)
    (file_size : Option Nat) : SegmentFetchRun :=
  match fuel with
  | 0 => { requests := [], deletions := 0, result := none }
  | f + 1 =>
    let size := file_size.getD 0
    let has_range := decide (0 < size)
    match responses with
    | [] =>
        { requests := [has_range], deletions := 0
          result := some (.error (.NetworkError "connection failed")) }
    | status :: rest =>
        if status = 416 then
          let r := download_segment f rest none
          { requests := has_range :: r.requests, deletions := r.deletions + 1
            result := r.result }
        else if 200 ≤ status ∧ status < 300 then
          { requests := [has_range], deletions := 0, result := some (.ok ()) }
        else
          { requests := [has_range], deletions := 0
            result := some (.error (.HttpError status)) }

/-- Model of the state-initialisation phase of
`DashDownloadTool::download_dash` (`src/core/src/tools/dash.rs` lines
431-463).  When the state file exists it is loaded — the `?` on
`DownloadState::load` propagates a load failure out of `download_dash` — and
a loaded state whose `source_url` or `output_path` differs from the current
request is replaced by a fresh `DownloadState::new`; when the state file does
not exist a fresh state is created as well. -/
def download_dash_init (state_file_exists : Bool)
    (load_result : Except DownloadErrorM DownloadState)
    (mpd_url output_path : String) (options : DownloadOptions) (now : Nat) :
    Except DownloadErrorM DownloadState :=
  if state_file_exists then
    match load_result with
    | .error e => .error e
    | .ok st =>
        if st.source_url ≠ mpd_url ∨ st.output_path ≠ output_path then
          .ok (DownloadState.new mpd_url output_path 0 [] options now)
        else .ok st
  else .ok (DownloadState.new mpd_url output_path 0 [] options now)

/-- File path at the granularity `get_state_file_path` manipulates it: the
directory part, the file stem (the file name up to its last dot) and the
optional extension (after the last dot), mirroring `std::path` semantics for
file names with a nonempty stem. -/
structure FsPath where
  dir : String
  stem : String
  ext : Option String
deriving DecidableEq, Repr

/-- Model of `PathBuf::set_extension`: replace the extension, keeping
directory and stem. -/
def FsPath.set_extension (p : FsPath) (new_ext : String) : FsPath :=
  { p with ext := some new_ext }

/-- Model of `get_state_file_path` (`src/core/src/tools/dash.rs` lines
99-103): the state-file path is the output path with its extension replaced
by `json`. -/
def get_state_file_path (output_path : FsPath) : FsPath :=
  output_path.set_extension "json"

/-- Model of `HlsVariant` of `src/core/src/streaming/hls.rs` (lines 539-548). -/
structure HlsVariant where
  url : String
  resolution : Option (Nat × Nat)
  bandwidth : Nat
  codec : Option String
deriving DecidableEq, Repr

/-- Model of `StreamingOptions` of `src/core/src/streaming/common.rs`,
restricted to the fields `select_best_variant` reads (the remaining fields —
paths, timeouts, the progress callback — are not consulted by the embedded
selection logic). -/
structure StreamingOptions where
  max_resolution : Option (Nat × Nat)
  min_resolution : Option (Nat × Nat)
  max_bitrate : Option Nat
  min_bitrate : Option Nat
deriving DecidableEq, Repr

/-- Pixel area key used by the final sort of `select_best_variant`
(`src/core/src/streaming/hls.rs` lines 231-235): `w * h`, with `0` for a
variant without resolution. -/
def variantArea (v : HlsVariant) : Nat :=
  match v.resolution with
  | some wh => wh.1 * wh.2
  | none => 0

/-- Filtering phase of `HlsDownloader::select_best_variant`
(`src/core/src/streaming/hls.rs` lines 189-222): sequential `retain` calls
for the max/min resolution bounds (variants without resolution always pass)
and the max/min bitrate bounds (options are in Kbps, bandwidth in bps, hence
`* 1000`). -/
def filtered_variants (variants : List HlsVariant) (opts : StreamingOptions) :
    List HlsVariant :=
  let f1 := variants.filter fun v =>
    match opts.max_resolution, v.resolution with
    | some mr, some r => decide (r.1 ≤ mr.1) && decide (r.2 ≤ mr.2)
    | some _, none => true
    | none, _ => true
  let f2 := f1.filter fun v =>
    match opts.min_resolution, v.resolution with
    | some mr, some r => decide (mr.1 ≤ r.1) && decide (mr.2 ≤ r.2)
    | some _, none => true
    | none, _ => true
  let f3 := f2.filter fun v =>
    match opts.max_bitrate with
    | some mb => decide (v.bandwidth ≤ mb * 1000)
    | none => true
  f3.filter fun v =>
    match opts.min_bitrate with
    | some mb => decide (mb * 1000 ≤ v.bandwidth)
    | none => true

/-- Fallback of `select_best_variant` (`src/core/src/streaming/hls.rs` lines
224-227): when filtering removed every candidate, the original variant list
is used instead. -/
def surviving_variants (variants : List HlsVariant) (opts : StreamingOptions) :
    List HlsVariant :=
  if (filtered_variants variants opts).isEmpty then variants
  else filtered_variants variants opts

/-- Model of `HlsDownloader::select_best_variant`
(`src/core/src/streaming/hls.rs` lines 184-238): stable sort of the surviving
candidates by descending pixel area (`sort_by` with comparator
`b_res.cmp(&a_res)`; Rust `sort_by` is stable, as is `List.mergeSort`), then
the first element.  The Rust function unwraps the head and is only called on
a non-empty variant list; the model returns an `Option`. -/
def select_best_variant (variants : List HlsVariant) (opts : StreamingOptions) :
    Option HlsVariant :=
  (List.mergeSort (surviving_variants variants opts)
    (fun a b => decide (variantArea b ≤ variantArea a))).head?

/-- Largest pixel area among a candidate list. -/
def maxVariantArea (l : List HlsVariant) : Nat :=
  l.foldl (fun m v => max m (variantArea v)) 0

/-- First candidate, in list order, whose pixel area is maximal.  This is the
specification-side characterisation the selection result is compared
against. -/
def first_max_area (l : List HlsVariant) : Option HlsVariant :=
  (l.filter fun v => decide (variantArea v = maxVariantArea l)).head?

/-- Media segment as delivered by the external `m3u8_rs` parser to the media
branch of `HlsDownloader::parse_manifest`: URI, duration, optional byte range
as `(start, length)`, optional title. -/
structure M3u8MediaSegment where
  uri : String
  duration : Float
  byte_range : Option (Nat × Nat)
  title : Option String

/-- Media playlist as delivered by the external `m3u8_rs` parser:
segment list, target duration, version, `#EXT-X-MEDIA-SEQUENCE` value and
presence of `#EXT-X-ENDLIST`. -/
structure M3u8MediaPlaylist where
  segments : List M3u8MediaSegment
  target_duration : Float
  version : Nat
  media_sequence : Nat
  end_list : Bool

/-- Model of `StreamSegment` of `src/core/src/streaming/common.rs`. -/
structure StreamSegment where
  url : String
  duration : Float
  sequence : Nat
  byte_range : Option (Nat × Nat)
  title : Option String
  resolution : Option (Nat × Nat)
  bandwidth : Option Nat
  codec : Option String

/-- Model of `HlsMedia` of `src/core/src/streaming/hls.rs` (lines 552-565). -/
structure HlsMedia where
  url : String
  segments : List StreamSegment
  target_duration : Float
  version : Nat
  sequence_no : Nat
  is_live : Bool

/-- URI resolution of `parse_manifest` (`src/core/src/streaming/hls.rs` lines
113-120): absolute URIs pass through, relative URIs are joined against the
playlist URL.  `Url::join` is an external library call, passed in as
`join`. -/
def resolve_uri (join : String → String → String) (base uri : String) : String :=
  if uri.startsWith "http" then uri else join base uri

/-- Model of the media-playlist branch of `HlsDownloader::parse_manifest`
(`src/core/src/streaming/hls.rs` lines 106-145): one `StreamSegment` per
parsed media entry, with `sequence := i` for the `i`-th entry of the
enumeration (starting at `0`), the byte range mapped to
`(start, start + length)`, and the playlist's media-sequence value stored in
the manifest's own `sequence_no` field; `is_live` is the absence of
`#EXT-X-ENDLIST`. -/
def parse_media_playlist (url : String) (join : String → String → String)
    (media : M3u8MediaPlaylist) : HlsMedia :=
  { url := url
    segments := media.segments.enum.map fun iseg =>
      { url := resolve_uri join url iseg.2.uri
        duration := iseg.2.duration
        sequence := iseg.1
        byte_range := iseg.2.byte_range.map fun r => (r.1, r.1 + r.2)
        title := iseg.2.title
        resolution := none
        bandwidth := none
        codec := none }
    target_duration := media.target_duration
    version := media.version
    sequence_no := media.media_sequence
    is_live := !media.end_list }

/-- Resume state of the fetcher example of the specification (and of
`src/core/tests/dash_resume_test.rs` lines 39-46): segments 0 and 1 already
completed out of 5. -/
def resumeExampleState : DownloadState :=
  { source_url := "http://example.com/test.mpd"
    output_path := "/tmp/test_output.mp4"
    completed_segments := [0, 1]
    total_segments := 5
    segment_mapping := []
    options := DownloadOptions.default
    updated_at := 0 }

/-- Media playlist with a nonzero `#EXT-X-MEDIA-SEQUENCE` value, used to
compare segment sequence assignment against the media-sequence number. -/
def mediaSeqExample : M3u8MediaPlaylist :=
  { segments := [{ uri := "segment1.ts", duration := 9.009, byte_range := none,
                   title := none }]
    target_duration := 10.0
    version := 3
    media_sequence := 5
    end_list := true }

/-- Variant with the lower bandwidth of a pair sharing one resolution. -/
def lowBandVariant : HlsVariant :=
  { url := "http://example.com/low.m3u8"
    resolution := some (854, 480)
    bandwidth := 1280000
    codec := none }

/-- Variant with the higher bandwidth of a pair sharing one resolution. -/
def highBandVariant : HlsVariant :=
  { url := "http://example.com/high.m3u8"
    resolution := some (854, 480)
    bandwidth := 2560000
    codec := none }

/-- Streaming options with no resolution or bitrate constraint. -/
def noConstraintOptions : StreamingOptions :=
  { max_resolution := none
    min_resolution := none
    max_bitrate := none
    min_bitrate := none }

/-!
Theorems.  Each claim of the specification is settled by exactly one theorem
below; auxiliary lemmas are shared helpers.
-/

/-- Helper: `List.contains` on `Nat` agrees with membership. -/
theorem contains_iff_mem (l : List Nat) (i : Nat) :
    l.contains i = true ↔ i ∈ l := by
  simp

/-- Helper: marking an already-present index is a complete no-op. -/
theorem mark_noop_of_contains (s : DownloadState) (i t : Nat)
    (hc : s.completed_segments.contains i = true) :
    s.mark_segment_completed i t = s := by
  unfold DownloadState.mark_segment_completed
  split
  · rfl
  · next hfalse => exact absurd hc hfalse

/-- Helper: marking an absent index appends it and refreshes `updated_at`. -/
theorem mark_append_of_not_contains (s : DownloadState) (i t : Nat)
    (hc : s.completed_segments.contains i = false) :
    s.mark_segment_completed i t
      = { s with completed_segments := s.completed_segments ++ [i],
                 updated_at := t } := by
  unfold DownloadState.mark_segment_completed
  split
  · next htrue => rw [hc] at htrue; exact Bool.noConfusion htrue
  · rfl

/-- C7: `mark_segment_completed` is idempotent: for a state carrying `i` at
most once, marking `i` twice is a no-op relative to marking once — the state
(hence the `completed_segments` length) is unchanged and `i` occurs exactly
once. -/
theorem mark_segment_completed_idempotent (s : DownloadState) (i t1 t2 : Nat)
    (h : s.completed_segments.count i ≤ 1) :
    (s.mark_segment_completed i t1).mark_segment_completed i t2
      = s.mark_segment_completed i t1
    ∧ ((s.mark_segment_completed i t1).mark_segment_completed i t2).completed_segments.count i
      = 1
    ∧ ((s.mark_segment_completed i t1).mark_segment_completed i t2).completed_segments.length
      = (s.mark_segment_completed i t1).completed_segments.length := by
  by_cases hc : s.completed_segments.contains i = true
  · have hmem : i ∈ s.completed_segments := (contains_iff_mem _ _).mp hc
    have hpos : 0 < s.completed_segments.count i := List.count_pos_iff.mpr hmem
    rw [mark_noop_of_contains s i t1 hc, mark_noop_of_contains s i t2 hc]
    exact ⟨rfl, Nat.le_antisymm h hpos, rfl⟩
  · have hcf : s.completed_segments.contains i = false := by
      cases hv : s.completed_segments.contains i
      · rfl
      · exact absurd hv hc
    have hmem : i ∉ s.completed_segments := fun hm => hc ((contains_iff_mem _ _).mpr hm)
    have hzero : s.completed_segments.count i = 0 := List.count_eq_zero.mpr hmem
    rw [mark_append_of_not_contains s i t1 hcf]
    have hc2 : ({ s with completed_segments := s.completed_segments ++ [i],
                         updated_at := t1 } : DownloadState).completed_segments.contains i
        = true := by
      simp
    rw [mark_noop_of_contains _ i t2 hc2]
    refine ⟨rfl, ?_, rfl⟩
    simp [hzero]

/-- Witness for `mark_segment_completed_idempotent` at the resume-test state
and index 2. -/
theorem mark_segment_completed_idempotent_witness :
    resumeExampleState.completed_segments.count 2 ≤ 1
    ∧ ((resumeExampleState.mark_segment_completed 2 7).mark_segment_completed 2 8
        = resumeExampleState.mark_segment_completed 2 7
      ∧ ((resumeExampleState.mark_segment_completed 2 7).mark_segment_completed 2 8).completed_segments.count 2
        = 1
      ∧ ((resumeExampleState.mark_segment_completed 2 7).mark_segment_completed 2 8).completed_segments.length
        = (resumeExampleState.mark_segment_completed 2 7).completed_segments.length) :=
  ⟨by decide, mark_segment_completed_idempotent resumeExampleState 2 7 8 (by decide)⟩

/-- C3: the task-creation loop issues requests exactly for the segment
indices not contained in the resume state's `completed_segments` (the
already-completed indices are excluded from the pending set before
dispatch); in particular with `completed_segments = [0, 1]` and 5 segments
the pending set is exactly `[2, 3, 4]`. -/
theorem pendingIndices_requests_exactly_uncompleted :
    (∀ (s : DownloadState) (n i : Nat),
        i ∈ pendingIndices n (some s) ↔ i < n ∧ i ∉ s.completed_segments)
    ∧ pendingIndices 5 (some resumeExampleState) = [2, 3, 4] := by
  constructor
  · intro s n i
    simp [pendingIndices, DownloadState.is_segment_completed]
  · decide

/-- C10: the state-file path is the output path with its extension replaced
by `json`, so any two output paths sharing directory and stem — in
particular two paths differing only in their extension — map to the same
state-file path. -/
theorem get_state_file_path_extension_collision (p q : FsPath)
    (h1 : p.dir = q.dir) (h2 : p.stem = q.stem) :
    get_state_file_path p = get_state_file_path q := by
  cases p
  cases q
  simp_all [get_state_file_path, FsPath.set_extension]

/-- Witness for `get_state_file_path_extension_collision`: `movie.mp4` and
`movie.mkv` are distinct paths with the same state-file path. -/
theorem get_state_file_path_extension_collision_witness :
    (("" : String) = "" ∧ ("movie" : String) = "movie")
    ∧ get_state_file_path ⟨"", "movie", some "mp4"⟩
        = get_state_file_path ⟨"", "movie", some "mkv"⟩
    ∧ (⟨"", "movie", some "mp4"⟩ : FsPath) ≠ ⟨"", "movie", some "mkv"⟩ :=
  ⟨⟨rfl, rfl⟩,
   get_state_file_path_extension_collision ⟨"", "movie", some "mp4"⟩
     ⟨"", "movie", some "mkv"⟩ rfl rfl,
   by decide⟩

/-- C5 counterexample: an unreadable state file is fatal — the load error is
propagated by `download_dash` (the `?` on `DownloadState::load` at line 435)
instead of being discarded, contradicting the claim that corrupted state is
never fatal. -/
theorem download_dash_init_load_error_fatal :
    download_dash_init true
        (.error (.DeserializationError "invalid json"))
        "http://example.com/test.mpd" "/tmp/out.mp4" DownloadOptions.default 0
      = .error (.DeserializationError "invalid json")
    ∧ ∀ st : DownloadState,
        download_dash_init true
            (.error (.DeserializationError "invalid json"))
            "http://example.com/test.mpd" "/tmp/out.mp4" DownloadOptions.default 0
          ≠ .ok st := by
  constructor
  · rfl
  · intro st
    simp [download_dash_init]

/-- C5 (amended): a stored state whose `source_url` or `output_path` differs
from the current request is discarded — never merged — and the download
starts fresh with an empty completed-segment set; a missing state file also
starts fresh; but a state file that exists and fails to load is fatal (the
error propagates). -/
theorem download_dash_init_mismatch_discards (st : DownloadState)
    (mpd_url output_path : String) (options : DownloadOptions) (now : Nat)
    (h : st.source_url ≠ mpd_url ∨ st.output_path ≠ output_path) :
    download_dash_init true (.ok st) mpd_url output_path options now
      = .ok (DownloadState.new mpd_url output_path 0 [] options now)
    ∧ (DownloadState.new mpd_url output_path 0 [] options now).completed_segments = []
    ∧ (∀ e, download_dash_init true (.error e) mpd_url output_path options now = .error e)
    ∧ download_dash_init false (.ok st) mpd_url output_path options now
      = .ok (DownloadState.new mpd_url output_path 0 [] options now) := by
  refine ⟨?_, rfl, fun e => rfl, rfl⟩
  simp [download_dash_init, h]

/-- Witness for `download_dash_init_mismatch_discards` at a stored state
whose source URL differs from the requested one. -/
theorem download_dash_init_mismatch_discards_witness :
    (resumeExampleState.source_url ≠ "http://example.com/other.mpd"
      ∨ resumeExampleState.output_path ≠ "/tmp/test_output.mp4")
    ∧ (download_dash_init true (.ok resumeExampleState)
          "http://example.com/other.mpd" "/tmp/test_output.mp4"
          DownloadOptions.default 9
        = .ok (DownloadState.new "http://example.com/other.mpd"
            "/tmp/test_output.mp4" 0 [] DownloadOptions.default 9)
      ∧ (DownloadState.new "http://example.com/other.mpd" "/tmp/test_output.mp4"
          0 [] DownloadOptions.default 9).completed_segments = []
      ∧ (∀ e, download_dash_init true (.error e) "http://example.com/other.mpd"
            "/tmp/test_output.mp4" DownloadOptions.default 9 = .error e)
      ∧ download_dash_init false (.ok resumeExampleState)
          "http://example.com/other.mpd" "/tmp/test_output.mp4"
          DownloadOptions.default 9
        = .ok (DownloadState.new "http://example.com/other.mpd"
            "/tmp/test_output.mp4" 0 [] DownloadOptions.default 9)) :=
  ⟨Or.inl (by decide),
   download_dash_init_mismatch_discards resumeExampleState
     "http://example.com/other.mpd" "/tmp/test_output.mp4"
     DownloadOptions.default 9 (Or.inl (by decide))⟩

/-- C2: with `max_concurrent = 2` and 5 pending segments, the trace in which
all five spawned tasks start their HTTP requests before any finishes is a
valid execution of `download_segments_parallel` — `tokio::spawn` starts every
task at creation, so `buffer_unordered(2)` does not bound the requests in
flight — and it reaches 5 simultaneous in-flight requests, exceeding the
bound 2 claimed by the specification. -/
theorem dash_spawn_exceeds_concurrency_bound :
    dashTraceValid 5 2
        [.reqStart 0, .reqStart 1, .reqStart 2, .reqStart 3, .reqStart 4] = true
    ∧ inFlight [.reqStart 0, .reqStart 1, .reqStart 2, .reqStart 3, .reqStart 4] 5 = 5
    ∧ 2 < 5 := by
  decide

/-- C1: `download_segments_parallel` returns the per-segment output paths in
the completion order of the spawned tasks, not sorted by sequence number:
with two segments that both succeed, completing in the order (1, 0), the
returned list is `[segment_0001.m4s, segment_0000.m4s]` rather than the
sequence-ordered list. -/
theorem dash_segments_returned_in_completion_order :
    download_segments_parallel
        ["http://example.com/seg0.m4s", "http://example.com/seg1.m4s"]
        none (fun _ => true) [1, 0]
      = .ok [segment_file_name 1, segment_file_name 0]
    ∧ segment_file_name 0 = "segment_0000.m4s"
    ∧ segment_file_name 1 = "segment_0001.m4s"
    ∧ [segment_file_name 1, segment_file_name 0]
      ≠ [segment_file_name 0, segment_file_name 1] := by
  refine ⟨by decide, by decide, by decide, by decide⟩

/-- C9 counterexample: for a playlist whose `#EXT-X-MEDIA-SEQUENCE` is 5, the
parser assigns the first segment sequence 0, not 5 — the enumeration index is
used, and the media-sequence value is only stored in the manifest's
`sequence_no` field. -/
theorem parse_media_sequence_starts_at_zero :
    mediaSeqExample.media_sequence = 5
    ∧ ((parse_media_playlist "http://example.com/playlist.m3u8"
          (fun b u => b ++ u) mediaSeqExample).segments.map
            fun seg => seg.sequence) = [0]
    ∧ ([0] : List Nat) ≠ [5] := by
  exact ⟨rfl, rfl, by decide⟩

/-- C9 (amended): media-playlist parsing assigns sequence indices in file
order starting at 0 — the `j`-th parsed segment gets sequence `j` — for every
playlist, independently of its media-sequence value (which is kept in the
manifest's `sequence_no` field instead of offsetting the segments). -/
theorem parse_media_playlist_sequences (url : String)
    (join : String → String → String) (media : M3u8MediaPlaylist) :
    ((parse_media_playlist url join media).segments.map fun seg => seg.sequence)
      = List.range media.segments.length
    ∧ (parse_media_playlist url join media).sequence_no = media.media_sequence := by
  refine ⟨?_, rfl⟩
  show (media.segments.enum.map _).map _ = _
  rw [List.map_map]
  exact List.enum_map_fst media.segments

/-- Helper: one unfolding step of `download_segment` on a nonempty response
list, with the match and let bindings reduced. -/
theorem download_segment_cons (f status : Nat) (rest : List Nat)
    (fsz : Option Nat) :
    download_segment (f + 1) (status :: rest) fsz
      = if status = 416 then
          { requests := decide (0 < fsz.getD 0)
              :: (download_segment f rest none).requests,
            deletions := (download_segment f rest none).deletions + 1,
            result := (download_segment f rest none).result }
        else if 200 ≤ status ∧ status < 300 then
          { requests := [decide (0 < fsz.getD 0)], deletions := 0,
            result := some (.ok ()) }
        else
          { requests := [decide (0 < fsz.getD 0)], deletions := 0,
            result := some (.error (.HttpError status)) } := rfl

/-- Helper: a server that answers 416 to every request exhausts any amount of
fuel — the delete-and-retry recursion of `download_segment` never returns. -/
theorem download_segment_all_416_diverges (fuel : Nat) :
    ∀ g : Option Nat,
      (download_segment fuel (List.replicate fuel 416) g).result = none := by
  induction fuel with
  | zero => intro g; rfl
  | succ f ih =>
      intro g
      rw [List.replicate_succ, download_segment_cons, if_pos rfl]
      exact ih none

/-- C4 (amended): every 416 answer triggers exactly one deletion of the local
partial file and exactly one retry, and every retry is issued from offset
zero (no Range header); but the number of 416-triggered retries is not
capped at one — after `m` consecutive 416 answers the code has performed `m`
deletions and `m` retries and only then succeeds or hard-fails on the first
non-416 status, and a server answering 416 forever makes the recursion run
without bound. -/
theorem download_segment_416_behaviour (status : Nat) (hs : status ≠ 416) :
    (∀ (m fuel : Nat) (fsz : Option Nat), m < fuel →
      (download_segment fuel (List.replicate m 416 ++ [status]) fsz).deletions = m
      ∧ (download_segment fuel (List.replicate m 416 ++ [status]) fsz).requests
          = decide (0 < fsz.getD 0) :: List.replicate m false
      ∧ (download_segment fuel (List.replicate m 416 ++ [status]) fsz).result
          = some (if 200 ≤ status ∧ status < 300 then .ok ()
                  else .error (.HttpError status)))
    ∧ ∀ (f2 : Nat) (g : Option Nat),
        (download_segment f2 (List.replicate f2 416) g).result = none := by
  constructor
  · intro m
    induction m with
    | zero =>
        intro fuel fsz hm
        cases fuel with
        | zero => omega
        | succ f =>
            rw [List.replicate_zero, List.nil_append, download_segment_cons,
              if_neg hs]
            by_cases h2 : 200 ≤ status ∧ status < 300
            · rw [if_pos h2, if_pos h2]
              exact ⟨rfl, rfl, rfl⟩
            · rw [if_neg h2, if_neg h2]
              exact ⟨rfl, rfl, rfl⟩
    | succ k ih =>
        intro fuel fsz hm
        cases fuel with
        | zero => omega
        | succ f =>
            have hk : k < f := by omega
            have ihf := ih f none hk
            rw [List.replicate_succ, List.cons_append, download_segment_cons,
              if_pos rfl]
            refine ⟨?_, ?_, ?_⟩
            · show (download_segment f (List.replicate k 416 ++ [status]) none).deletions + 1
                  = k + 1
              rw [ihf.1]
            · show decide (0 < fsz.getD 0)
                    :: (download_segment f (List.replicate k 416 ++ [status]) none).requests
                  = decide (0 < fsz.getD 0) :: List.replicate (k + 1) false
              rw [ihf.2.1, List.replicate_succ]
              rfl
            · exact ihf.2.2
  · intro f2 g
    exact download_segment_all_416_diverges f2 g

/-- Witness for `download_segment_416_behaviour`: two 416 answers followed by
404, against a 100-byte partial file. -/
theorem download_segment_416_behaviour_witness :
    (404 : Nat) ≠ 416
    ∧ (2 : Nat) < 10
    ∧ ((download_segment 10 (List.replicate 2 416 ++ [404]) (some 100)).deletions = 2
      ∧ (download_segment 10 (List.replicate 2 416 ++ [404]) (some 100)).requests
          = decide (0 < (some 100 : Option Nat).getD 0) :: List.replicate 2 false
      ∧ (download_segment 10 (List.replicate 2 416 ++ [404]) (some 100)).result
          = some (if 200 ≤ 404 ∧ 404 < 300 then .ok ()
                  else .error (.HttpError 404))) :=
  ⟨by decide, by decide,
   (download_segment_416_behaviour 404 (by decide)).1 2 10 (some 100) (by decide)⟩

/-- C4 counterexample: a segment fetch answered 416, then 416 again, then 404
performs two deletions and two retries before the hard failure — the claimed
cap of exactly one deletion and one retry per 416 episode before hard
failure does not hold. -/
theorem download_segment_416_not_capped :
    download_segment 10 [416, 416, 404] (some 100)
      = { requests := [true, false, false], deletions := 2,
          result := some (.error (.HttpError 404)) }
    ∧ (2 : Nat) ≠ 1 := by
  exact ⟨by decide, by decide⟩

/-- Helper: number lists decode back from their encoding. -/
theorem asNatList_round (xs : List Nat) :
    Json.asNatList (.arr (xs.map Json.num)) = some xs := by
  induction xs with
  | nil => rfl
  | cons x t ih =>
      simp only [Json.asNatList] at ih ⊢
      simp only [List.map_cons, Json.natListAux, Json.asNat, ih]
      rfl

/-- Helper: string maps decode back from their encoding. -/
theorem asStrMap_round (kvs : List (String × String)) :
    Json.asStrMap (.obj (kvs.map fun kv => (kv.1, .str kv.2))) = some kvs := by
  induction kvs with
  | nil => rfl
  | cons kv t ih =>
      simp only [Json.asStrMap] at ih ⊢
      simp only [List.map_cons, Json.strMapAux, ih]
      rfl

/-- Helper: `VideoFormat` decodes back from its encoding. -/
theorem decodeVideoFormat_round (f : VideoFormat) :
    decodeVideoFormat (encodeVideoFormat f) = some f := by
  cases f <;> rfl

/-- Helper: optional booleans decode back from their encoding. -/
theorem asOptBool_round (b : Option Bool) :
    Json.asOptBool (encodeOptBool b) = some b := by
  cases b <;> rfl

/-- Helper: optional numbers decode back from their encoding. -/
theorem asOptNat_round (n : Option Nat) :
    Json.asOptNat (encodeOptNat n) = some n := by
  cases n <;> rfl

/-- Helper: `DownloadOptions` decodes back from its encoding. -/
theorem decodeDownloadOptions_round (o : DownloadOptions) :
    decodeDownloadOptions (encodeDownloadOptions o) = some o := by
  simp [decodeDownloadOptions, encodeDownloadOptions, List.lookup,
    Json.asNat, Json.asBool, decodeVideoFormat_round, asOptBool_round,
    asOptNat_round]

/-- Helper: `DownloadState` decodes back from its encoding. -/
theorem decodeDownloadState_round (s : DownloadState) :
    decodeDownloadState (encodeDownloadState s) = some s := by
  simp [decodeDownloadState, encodeDownloadState, List.lookup,
    Json.asStr, Json.asNat, asNatList_round, asStrMap_round,
    decodeDownloadOptions_round]

/-- C6: the save/load round trip of the Download State Store — for every
`DownloadState` value `s`, every file system and every path, loading `path`
after saving `s` at `path` returns a state equal to `s`. -/
theorem DownloadState.load_save (s : DownloadState) (fsys : FileStore)
    (path : String) :
    DownloadState.load (s.save fsys path) path = some s := by
  unfold DownloadState.load DownloadState.save
  rw [if_pos rfl]
  exact decodeDownloadState_round s

/-- Helper: the accumulator is a lower bound of the area-maximum fold. -/
theorem maxVariantArea_fold_acc_le (l : List HlsVariant) :
    ∀ acc : Nat, acc ≤ l.foldl (fun m v => max m (variantArea v)) acc := by
  induction l with
  | nil => intro acc; exact Nat.le_refl acc
  | cons v t ih =>
      intro acc
      exact le_trans (Nat.le_max_left acc (variantArea v)) (ih _)

/-- Helper: every member's area is bounded by the area-maximum fold. -/
theorem variantArea_le_fold (l : List HlsVariant) :
    ∀ (acc : Nat) (v : HlsVariant), v ∈ l →
      variantArea v ≤ l.foldl (fun m v => max m (variantArea v)) acc := by
  induction l with
  | nil => intro acc v hv; cases hv
  | cons w t ih =>
      intro acc v hv
      cases hv with
      | head =>
          exact le_trans (Nat.le_max_right acc (variantArea w))
            (maxVariantArea_fold_acc_le t _)
      | tail _ hv => exact ih _ v hv

/-- Helper: every member's area is bounded by `maxVariantArea`. -/
theorem variantArea_le_max (l : List HlsVariant) (v : HlsVariant) (hv : v ∈ l) :
    variantArea v ≤ maxVariantArea l :=
  variantArea_le_fold l 0 v hv

/-- Helper: the area-maximum fold returns its accumulator or an attained
area. -/
theorem maxVariantArea_fold_attained (l : List HlsVariant) :
    ∀ acc : Nat, l.foldl (fun m v => max m (variantArea v)) acc = acc
      ∨ ∃ v ∈ l, l.foldl (fun m v => max m (variantArea v)) acc = variantArea v := by
  induction l with
  | nil => intro acc; exact Or.inl rfl
  | cons w t ih =>
      intro acc
      rw [List.foldl_cons]
      rcases ih (max acc (variantArea w)) with h | ⟨v, hv, he⟩
      · by_cases hc : variantArea w ≤ acc
        · left
          rw [h, Nat.max_eq_left hc]
        · right
          refine ⟨w, List.mem_cons_self w t, ?_⟩
          rw [h, Nat.max_eq_right (Nat.le_of_not_le hc)]
      · exact Or.inr ⟨v, List.mem_cons_of_mem w hv, he⟩

/-- Helper: on a nonempty list the maximal area is attained by a member. -/
theorem maxVariantArea_attained (l : List HlsVariant) (hl : l ≠ []) :
    ∃ v ∈ l, variantArea v = maxVariantArea l := by
  rcases maxVariantArea_fold_attained l 0 with h | ⟨v, hv, he⟩
  · cases l with
    | nil => exact absurd rfl hl
    | cons w t =>
        refine ⟨w, List.mem_cons_self w t, ?_⟩
        have hle := variantArea_le_max (w :: t) w (List.mem_cons_self w t)
        have hzero : maxVariantArea (w :: t) = 0 := h
        omega
  · exact ⟨v, hv, he.symm⟩

/-- Helper: the head of the stable descending-by-area sort is the first
element, in list order, whose area is maximal.  Stability of `mergeSort`
(`List.sublist_mergeSort`) is what pins the tie-break to list order. -/
theorem head_mergeSort_area (l : List HlsVariant) :
    (List.mergeSort l (fun a b => decide (variantArea b ≤ variantArea a))).head?
      = (l.filter fun v => decide (variantArea v = maxVariantArea l)).head? := by
  have htrans : ∀ a b c : HlsVariant,
      (fun a b => decide (variantArea b ≤ variantArea a)) a b = true →
      (fun a b => decide (variantArea b ≤ variantArea a)) b c = true →
      (fun a b => decide (variantArea b ≤ variantArea a)) a c = true := by
    intro a b c hab hbc
    simp only [decide_eq_true_eq] at hab hbc ⊢
    exact le_trans hbc hab
  have htotal : ∀ a b : HlsVariant,
      ((fun a b => decide (variantArea b ≤ variantArea a)) a b
        || (fun a b => decide (variantArea b ≤ variantArea a)) b a) = true := by
    intro a b
    simp only [Bool.or_eq_true, decide_eq_true_eq]
    exact Nat.le_total (variantArea b) (variantArea a)
  by_cases hl : l = []
  · subst hl
    simp
  · have hperm := List.mergeSort_perm l
      (fun a b => decide (variantArea b ≤ variantArea a))
    have hsorted := List.sorted_mergeSort htrans htotal l
    obtain ⟨h, t2, hs⟩ : ∃ h t2,
        List.mergeSort l (fun a b => decide (variantArea b ≤ variantArea a))
          = h :: t2 := by
      cases hcase : List.mergeSort l
          (fun a b => decide (variantArea b ≤ variantArea a)) with
      | nil =>
          exfalso
          have := hperm.length_eq
          rw [hcase] at this
          exact hl (List.eq_nil_of_length_eq_zero this.symm)
      | cons a b => exact ⟨a, b, rfl⟩
    have hmem : h ∈ l := hperm.mem_iff.mp (hs ▸ List.mem_cons_self h t2)
    obtain ⟨v, hvmem, hvarea⟩ := maxVariantArea_attained l hl
    have hhle : variantArea h ≤ maxVariantArea l := variantArea_le_max l h hmem
    have hvs : v ∈ List.mergeSort l
        (fun a b => decide (variantArea b ≤ variantArea a)) :=
      hperm.mem_iff.mpr hvmem
    have hge : maxVariantArea l ≤ variantArea h := by
      rw [hs] at hvs
      cases hvs with
      | head => exact Nat.le_of_eq hvarea.symm
      | tail _ hvt =>
          rw [hs] at hsorted
          have hpair := (List.pairwise_cons.mp hsorted).1 v hvt
          simp only [decide_eq_true_eq] at hpair
          rw [← hvarea]
          exact hpair
    have hharea : variantArea h = maxVariantArea l := Nat.le_antisymm hhle hge
    have hf0sub : (l.filter fun v =>
        decide (variantArea v = maxVariantArea l)).Sublist l :=
      List.filter_sublist l
    have hf0pair : (l.filter fun v =>
        decide (variantArea v = maxVariantArea l)).Pairwise
          (fun a b =>
            (fun a b => decide (variantArea b ≤ variantArea a)) a b = true) := by
      apply List.pairwise_of_forall_mem_list
      intro a ha b hb
      have hpa := List.of_mem_filter ha
      have hpb := List.of_mem_filter hb
      simp only [decide_eq_true_eq] at hpa hpb
      simp only [decide_eq_true_eq]
      rw [hpa, hpb]
    have hf0s : (l.filter fun v =>
        decide (variantArea v = maxVariantArea l)).Sublist
          (List.mergeSort l (fun a b => decide (variantArea b ≤ variantArea a))) :=
      List.sublist_mergeSort htrans htotal hf0pair hf0sub
    have hf0filter : ((l.filter fun v =>
        decide (variantArea v = maxVariantArea l)).filter fun v =>
          decide (variantArea v = maxVariantArea l))
        = l.filter fun v => decide (variantArea v = maxVariantArea l) :=
      List.filter_eq_self.mpr fun a ha => (List.mem_filter.mp ha).2
    have hf0sfil : (l.filter fun v =>
        decide (variantArea v = maxVariantArea l)).Sublist
          ((List.mergeSort l
            (fun a b => decide (variantArea b ≤ variantArea a))).filter
              fun v => decide (variantArea v = maxVariantArea l)) := by
      have hstep := List.Sublist.filter
        (fun v => decide (variantArea v = maxVariantArea l)) hf0s
      rwa [hf0filter] at hstep
    have hlen : (l.filter fun v =>
        decide (variantArea v = maxVariantArea l)).length
        = ((List.mergeSort l
            (fun a b => decide (variantArea b ≤ variantArea a))).filter
              fun v => decide (variantArea v = maxVariantArea l)).length :=
      ((hperm.filter fun v => decide (variantArea v = maxVariantArea l)).length_eq).symm
    have heq : (l.filter fun v => decide (variantArea v = maxVariantArea l))
        = (List.mergeSort l
            (fun a b => decide (variantArea b ≤ variantArea a))).filter
              fun v => decide (variantArea v = maxVariantArea l) :=
      hf0sfil.eq_of_length hlen
    have hph : decide (variantArea h = maxVariantArea l) = true := by
      simp only [decide_eq_true_eq]
      exact hharea
    rw [hs, heq, hs, List.filter_cons]
    rw [hph]
    simp

/-- C8 (amended): video quality selection filters candidates by the
resolution and bitrate bounds; if filtering removes every candidate the
filters are discarded and the full candidate set is used; among the
surviving candidates the selected variant is the first one, in candidate
order, whose pixel area is maximal — ties in pixel area are broken by list
position (the stable sort keeps the earlier candidate first), not by
bandwidth. -/
theorem select_best_variant_spec (variants : List HlsVariant)
    (opts : StreamingOptions) :
    select_best_variant variants opts
      = first_max_area (surviving_variants variants opts)
    ∧ (filtered_variants variants opts = [] →
        surviving_variants variants opts = variants) := by
  constructor
  · unfold select_best_variant first_max_area
    exact head_mergeSort_area (surviving_variants variants opts)
  · intro h
    simp [surviving_variants, h]

/-- C8 counterexample: two variants with equal pixel area and different
bandwidths, no constraints — the selection returns the first-listed variant,
which has the lower bandwidth, so ties are not broken by higher bandwidth. -/
theorem select_best_variant_tie_not_by_bandwidth :
    select_best_variant [lowBandVariant, highBandVariant] noConstraintOptions
      = some lowBandVariant
    ∧ variantArea lowBandVariant = variantArea highBandVariant
    ∧ lowBandVariant.bandwidth < highBandVariant.bandwidth
    ∧ lowBandVariant ≠ highBandVariant := by
  refine ⟨?_, by decide, by decide, by decide⟩
  unfold select_best_variant
  rw [head_mergeSort_area]
  decide

/-- Witness for `pendingIndices_requests_exactly_uncompleted` at the
resume-test state, index 2, 5 segments. -/
theorem pendingIndices_requests_exactly_uncompleted_witness :
    (2 ∈ pendingIndices 5 (some resumeExampleState)
      ↔ 2 < 5 ∧ 2 ∉ resumeExampleState.completed_segments)
    ∧ pendingIndices 5 (some resumeExampleState) = [2, 3, 4] :=
  ⟨pendingIndices_requests_exactly_uncompleted.1 resumeExampleState 5 2,
   pendingIndices_requests_exactly_uncompleted.2⟩

/-- Witness for `select_best_variant_spec` at the two equal-area variants
with no constraints. -/
theorem select_best_variant_spec_witness :
    select_best_variant [lowBandVariant, highBandVariant] noConstraintOptions
      = first_max_area
          (surviving_variants [lowBandVariant, highBandVariant] noConstraintOptions)
    ∧ (filtered_variants [lowBandVariant, highBandVariant] noConstraintOptions = [] →
        surviving_variants [lowBandVariant, highBandVariant] noConstraintOptions
          = [lowBandVariant, highBandVariant]) :=
  select_best_variant_spec [lowBandVariant, highBandVariant] noConstraintOptions
